import Mathlib

/-!
Verification development for the releasechannels server: the in-memory
indexed release store (`internal/db/db.go`) and the server's load/reload
path (`loadDatabase`, `ReloadDatabase`, `startFileWatcher`).

Embedding conventions:
* Go maps become association lists with `mapLookup` / `mapInsert`
  (insert-or-replace, matching Go map assignment).
* Pointer-receiver methods become explicit state transformers: they
  return the updated receiver alongside the Go return values.
* `json.Unmarshal` of the backing blob is abstracted by `ParseResult`:
  either the blob is malformed, or it yields the decoded record list.
* `os.Stat` / `os.ReadFile` outcomes are packaged in `FileSys`;
  modification times are integers, `t.After(u)` is `t > u`.
-/

/-- `Release` from db.go: container, imagePath, releaseChannel. -/
structure Release where
  container : String
  imagePath : String
  releaseChannel : String
deriving DecidableEq

/-- `ReleaseKey` from db.go: the comparable composite key. -/
structure ReleaseKey where
  container : String
  releaseChannel : String
deriving DecidableEq

/-- `(*Release).ToKey` from db.go. -/
def Release.toKey (r : Release) : ReleaseKey :=
  { container := r.container, releaseChannel := r.releaseChannel }

/-- `Releases` from db.go: a list-context Release. -/
abbrev Releases := List Release

/-- Go map read with ok-flag: `v, ok := m[k]` on an association list. -/
def mapLookup {α β : Type} [DecidableEq α] : List (α × β) → α → Option β
  | [], _ => none
  | (k, v) :: rest, k' => if k = k' then some v else mapLookup rest k'

/-- Go map assignment `m[k] = v` on an association list (insert or replace). -/
def mapInsert {α β : Type} [DecidableEq α] : List (α × β) → α → β → List (α × β)
  | [], k, v => [(k, v)]
  | (k0, v0) :: rest, k, v =>
      if k0 = k then (k, v) :: rest else (k0, v0) :: mapInsert rest k v

/-- `inMem` from db.go: the full sequence plus the three indices. -/
structure inMem where
  all : Releases
  byChannel : List (String × Releases)
  byContainer : List (String × Releases)
  byBoth : List (ReleaseKey × Release)
deriving DecidableEq

/-- `NewInMemoryStore` from db.go (logger omitted). -/
def NewInMemoryStore : inMem :=
  { all := [], byChannel := [], byContainer := [], byBoth := [] }

/-- `(*inMem).Query` from db.go, with the receiver threaded explicitly:
the pair is (returned Releases, receiver state at return). -/
def inMem.QueryS (im : inMem) (r : Release) : Releases × inMem :=
  if r.container ≠ "" ∧ r.releaseChannel ≠ "" then
    match mapLookup im.byBoth r.toKey with
    | some out => ([out], im)
    | none => ([], im)
  else if r.container ≠ "" then
    match mapLookup im.byContainer r.container with
    | some out => (out, im)
    | none => ([], im)
  else if r.releaseChannel ≠ "" then
    match mapLookup im.byChannel r.releaseChannel with
    | some out => (out, im)
    | none => ([], im)
  else (im.all, im)

/-- The value `Query` returns. -/
def inMem.Query (im : inMem) (r : Release) : Releases := (im.QueryS r).1

/-- The three validation failures of `Write`, each naming the field its
Go error message names (`container`, `releaseChannel`, `image_path`). -/
inductive WriteError where
  | containerNotSet
  | releaseChannelNotSet
  | imagePathNotSet
deriving DecidableEq

/-- `(*inMem).Write` from db.go: validate the three fields, then append
to `all`, to the by-container and by-channel lists, and set the
composite-key entry. Returns (receiver state at return, error). -/
def inMem.Write (im : inMem) (r : Release) : inMem × Option WriteError :=
  if r.container = "" then (im, some .containerNotSet)
  else if r.releaseChannel = "" then (im, some .releaseChannelNotSet)
  else if r.imagePath = "" then (im, some .imagePathNotSet)
  else
    ({ all := im.all ++ [r]
       byContainer :=
         mapInsert im.byContainer r.container
           (((mapLookup im.byContainer r.container).getD []) ++ [r])
       byChannel :=
         mapInsert im.byChannel r.releaseChannel
           (((mapLookup im.byChannel r.releaseChannel).getD []) ++ [r])
       byBoth := mapInsert im.byBoth r.toKey r }, none)

/-- A record passes Write-level validation iff all three fields are non-empty. -/
def validRelease (r : Release) : Bool :=
  decide (r.container ≠ "") && decide (r.releaseChannel ≠ "") && decide (r.imagePath ≠ "")

/-- Outcome of `json.Unmarshal` on the backing blob: either it is not
well-formed structured data, or it decodes to a list of records. -/
inductive ParseResult where
  | malformed
  | ok (releases : List Release)
deriving DecidableEq

/-- The one load-level error: the blob cannot be parsed at all. -/
inductive LoadError where
  | malformedInput
deriving DecidableEq

/-- The per-record loop of `loadDatabase`: one `Write` per record; a
failed `Write` is logged and skipped (the receiver keeps its state). -/
def writeAll (im : inMem) : List Release → inMem
  | [] => im
  | r :: rest => writeAll (im.Write r).1 rest

/-- `srv` from server.go: the published store and the last-modified
watermark (file path, channels and logger omitted). -/
structure Srv where
  db : inMem
  lastMod : Int
deriving DecidableEq

/-- `(*srv).loadDatabase` from server.go: FIRST replaces `s.db` with a
fresh empty store, THEN unmarshals (aborting on error with the fresh
store already in place), then writes each record, skipping failures. -/
def Srv.loadDatabase (s : Srv) (data : ParseResult) : Srv × Option LoadError :=
  let s1 : Srv := { s with db := NewInMemoryStore }
  match data with
  | .malformed => (s1, some .malformedInput)
  | .ok rs => ({ s1 with db := writeAll s1.db rs }, none)

/-- Errors `ReloadDatabase` can return: stat failure, read failure, or a
load failure passed through. -/
inductive ReloadError where
  | ioStatError
  | ioReadError
  | loadError (e : LoadError)
deriving DecidableEq

/-- One reload attempt's view of the file system: the `os.Stat` outcome
(modification time) and the `os.ReadFile`+decode outcome. -/
structure FileSys where
  statResult : Except Unit Int
  readResult : Except Unit ParseResult

/-- `(*srv).ReloadDatabase` from server.go: stat the file (abort on
error); skip when the mod time is not strictly newer than `lastMod`;
read the file (abort on error); load; on success record the new
watermark. Returns (server state at return, error). -/
def Srv.ReloadDatabase (s : Srv) (fs : FileSys) : Srv × Option ReloadError :=
  match fs.statResult with
  | .error _ => (s, some .ioStatError)
  | .ok modTime =>
    if ¬ modTime > s.lastMod then (s, none)
    else
      match fs.readResult with
      | .error _ => (s, some .ioReadError)
      | .ok data =>
        match s.loadDatabase data with
        | (s1, some e) => (s1, some (.loadError e))
        | (s1, none) => ({ s1 with lastMod := modTime }, none)

/-- The two events the watcher goroutine of `startFileWatcher` selects on. -/
inductive WatcherEvent where
  | tick
  | ctxDone
deriving DecidableEq

/-- Whether the watcher loop keeps running after an event. -/
inductive WatcherAction where
  | continueLoop
  | stopLoop
deriving DecidableEq

/-- One iteration of the `startFileWatcher` loop: a timer tick runs
`ReloadDatabase`, logs any error, and loops; only context cancellation
returns. -/
def watcherStep (s : Srv) (fs : FileSys) : WatcherEvent → Srv × WatcherAction
  | .tick => ((s.ReloadDatabase fs).1, .continueLoop)
  | .ctxDone => (s, .stopLoop)

/-- The successive values of the published field `s.db` while
`loadDatabase` runs on parse-ok input: right after the
`s.db = db.NewInMemoryStore(...)` assignment, and after each `Write`
call of the loop. A query served concurrently reads one of these. -/
def writeStates (im : inMem) : List Release → List inMem
  | [] => []
  | r :: rest => (im.Write r).1 :: writeStates (im.Write r).1 rest

/-- All store values visible to concurrent queries during a load. -/
def loadVisible (rs : List Release) : List inMem :=
  NewInMemoryStore :: writeStates NewInMemoryStore rs

/- Concrete values used by witnesses and counterexamples. -/

/-- A valid release used in concrete scenarios. -/
def relA : Release := { container := "app", imagePath := "img", releaseChannel := "dev" }

/-- A second valid release (distinct container). -/
def relB : Release := { container := "b", imagePath := "imgb", releaseChannel := "dev" }

/-- A third valid release (distinct container). -/
def relC : Release := { container := "c", imagePath := "imgc", releaseChannel := "prod" }

/-- A prior-generation server: one release loaded, watermark 0. -/
def srv0 : Srv := { db := (NewInMemoryStore.Write relA).1, lastMod := 0 }

/-- The all-empty query filter (dataset dump). -/
def emptyFilter : Release := { container := "", imagePath := "", releaseChannel := "" }


/- Helper lemmas about the association-list map model. -/

theorem mapLookup_mapInsert_self {α β : Type} [DecidableEq α]
    (m : List (α × β)) (k : α) (v : β) :
    mapLookup (mapInsert m k v) k = some v := by
  induction m with
  | nil => simp [mapInsert, mapLookup]
  | cons hd tl ih =>
    obtain ⟨k0, v0⟩ := hd
    by_cases h : k0 = k
    · subst h
      simp [mapInsert, mapLookup]
    · simp [mapInsert, mapLookup, h, ih]

theorem mapLookup_mapInsert_ne {α β : Type} [DecidableEq α]
    (m : List (α × β)) (k k' : α) (v : β) (h : k ≠ k') :
    mapLookup (mapInsert m k v) k' = mapLookup m k' := by
  induction m with
  | nil => simp [mapInsert, mapLookup, h]
  | cons hd tl ih =>
    obtain ⟨k0, v0⟩ := hd
    by_cases h0 : k0 = k
    · subst h0
      simp [mapInsert, mapLookup, h]
    · simp [mapInsert, mapLookup, h0, ih]

/- Characterizations of Write. -/

/-- The store `Write` builds on success from store `im` and record `r`. -/
def writeResult (im : inMem) (r : Release) : inMem :=
  { all := im.all ++ [r]
    byContainer :=
      mapInsert im.byContainer r.container
        (((mapLookup im.byContainer r.container).getD []) ++ [r])
    byChannel :=
      mapInsert im.byChannel r.releaseChannel
        (((mapLookup im.byChannel r.releaseChannel).getD []) ++ [r])
    byBoth := mapInsert im.byBoth r.toKey r }

theorem Write_eq_of_valid (im : inMem) (r : Release) (h : validRelease r = true) :
    im.Write r = (writeResult im r, none) := by
  simp only [validRelease, Bool.and_eq_true, decide_eq_true_eq] at h
  obtain ⟨⟨hc, hch⟩, hip⟩ := h
  simp [inMem.Write, writeResult, hc, hch, hip]

theorem Write_fst_of_invalid (im : inMem) (r : Release) (h : validRelease r = false) :
    (im.Write r).1 = im := by
  unfold inMem.Write
  by_cases hc : r.container = ""
  · simp [hc]
  · by_cases hch : r.releaseChannel = ""
    · simp [hc, hch]
    · by_cases hip : r.imagePath = ""
      · simp [hc, hch, hip]
      · exfalso
        simp [validRelease, hc, hch, hip] at h

theorem Write_ok (im im' : inMem) (r : Release) (h : im.Write r = (im', none)) :
    validRelease r = true ∧ im' = writeResult im r := by
  have hv : validRelease r = true := by
    by_contra hv
    have hv' : validRelease r = false := by
      cases hfull : validRelease r
      · rfl
      · exact absurd hfull hv
    unfold inMem.Write at h
    simp only [validRelease, Bool.and_eq_false_iff, decide_eq_false_iff_not,
      not_not] at hv'
    rcases hv' with (hc | hch) | hip
    · simp [hc] at h
    · by_cases hc : r.container = ""
      · simp [hc] at h
      · simp [hc, hch] at h
    · by_cases hc : r.container = ""
      · simp [hc] at h
      · by_cases hch : r.releaseChannel = ""
        · simp [hc, hch] at h
        · simp [hc, hch, hip] at h
  rw [Write_eq_of_valid im r hv] at h
  exact ⟨hv, (Prod.ext_iff.mp h).1.symm⟩

/- Invariants of the load loop. -/

theorem validRelease_false_of_not_true {r : Release} (h : ¬ validRelease r = true) :
    validRelease r = false := by
  cases hfull : validRelease r
  · rfl
  · exact absurd hfull h

theorem writeAll_all (rs : List Release) (im : inMem) :
    (writeAll im rs).all = im.all ++ rs.filter validRelease := by
  induction rs generalizing im with
  | nil => simp [writeAll]
  | cons r rest ih =>
    simp only [writeAll]
    rw [ih]
    by_cases hv : validRelease r = true
    · rw [Write_eq_of_valid im r hv]
      simp [writeResult, hv, List.filter_cons]
    · rw [Write_fst_of_invalid im r (validRelease_false_of_not_true hv)]
      simp [List.filter_cons, validRelease_false_of_not_true hv]

theorem writeAll_byContainer (rs : List Release) (im : inMem) (c : String) :
    (mapLookup (writeAll im rs).byContainer c).getD [] =
      ((mapLookup im.byContainer c).getD []) ++
        rs.filter (fun r => validRelease r && decide (r.container = c)) := by
  induction rs generalizing im with
  | nil => simp [writeAll]
  | cons r rest ih =>
    simp only [writeAll]
    rw [ih]
    by_cases hv : validRelease r = true
    · rw [Write_eq_of_valid im r hv]
      by_cases hc : r.container = c
      · subst hc
        simp [writeResult, mapLookup_mapInsert_self, hv, List.filter_cons]
      · simp [writeResult, mapLookup_mapInsert_ne _ _ _ _ hc, hv, hc,
          List.filter_cons]
    · rw [Write_fst_of_invalid im r (validRelease_false_of_not_true hv)]
      simp [List.filter_cons, validRelease_false_of_not_true hv]

theorem writeAll_byChannel (rs : List Release) (im : inMem) (ch : String) :
    (mapLookup (writeAll im rs).byChannel ch).getD [] =
      ((mapLookup im.byChannel ch).getD []) ++
        rs.filter (fun r => validRelease r && decide (r.releaseChannel = ch)) := by
  induction rs generalizing im with
  | nil => simp [writeAll]
  | cons r rest ih =>
    simp only [writeAll]
    rw [ih]
    by_cases hv : validRelease r = true
    · rw [Write_eq_of_valid im r hv]
      by_cases hc : r.releaseChannel = ch
      · subst hc
        simp [writeResult, mapLookup_mapInsert_self, hv, List.filter_cons]
      · simp [writeResult, mapLookup_mapInsert_ne _ _ _ _ hc, hv, hc,
          List.filter_cons]
    · rw [Write_fst_of_invalid im r (validRelease_false_of_not_true hv)]
      simp [List.filter_cons, validRelease_false_of_not_true hv]

/- Claim theorems. -/

/-- C3: `Query` dispatches by the fixed precedence order — both fields
set: exact composite lookup returning at most one element; only
container set: by-container lookup; only releaseChannel set: by-channel
lookup; neither set: the entire full sequence — and when cases 1–3 find
no match it returns the empty sequence, never an error. -/
theorem C3_queryDispatch (im : inMem) (r : Release) :
    (r.container ≠ "" → r.releaseChannel ≠ "" →
      im.Query r = ((mapLookup im.byBoth r.toKey).map fun o => [o]).getD []
      ∧ (im.Query r).length ≤ 1)
    ∧ (r.container ≠ "" → r.releaseChannel = "" →
      im.Query r = (mapLookup im.byContainer r.container).getD [])
    ∧ (r.container = "" → r.releaseChannel ≠ "" →
      im.Query r = (mapLookup im.byChannel r.releaseChannel).getD [])
    ∧ (r.container = "" → r.releaseChannel = "" → im.Query r = im.all) := by
  refine ⟨?_, ?_, ?_, ?_⟩
  · intro h1 h2
    simp only [inMem.Query, inMem.QueryS]
    rw [if_pos ⟨h1, h2⟩]
    cases hl : mapLookup im.byBoth r.toKey <;> simp [hl]
  · intro h1 h2
    simp only [inMem.Query, inMem.QueryS]
    rw [if_neg (by simp [h2]), if_pos h1]
    cases hl : mapLookup im.byContainer r.container <;> simp [hl]
  · intro h1 h2
    simp only [inMem.Query, inMem.QueryS]
    rw [if_neg (by simp [h1]), if_neg (by simp [h1]), if_pos h2]
    cases hl : mapLookup im.byChannel r.releaseChannel <;> simp [hl]
  · intro h1 h2
    simp [inMem.Query, inMem.QueryS, h1, h2]

/-- C5: when the file's modification time is not strictly newer than the
last-applied watermark, `ReloadDatabase` succeeds without reading the
file or rebuilding: the result is the unchanged server state, and it
does not depend on the file's contents at all. -/
theorem C5_staleSkip (s : Srv) (t : Int) (rr rr' : Except Unit ParseResult)
    (h : ¬ t > s.lastMod) :
    s.ReloadDatabase { statResult := .ok t, readResult := rr } = (s, none)
    ∧ s.ReloadDatabase { statResult := .ok t, readResult := rr } =
        s.ReloadDatabase { statResult := .ok t, readResult := rr' } := by
  constructor <;> simp [Srv.ReloadDatabase, h]

/-- C6: when stating or reading the backing file fails, `ReloadDatabase`
returns the I/O error, the previously published generation and watermark
are unchanged, and a watcher tick hitting the failure still continues
the loop. -/
theorem C6_ioFailureRetains (s : Srv) (fs : FileSys)
    (h : fs.statResult = .error () ∨
      ∃ t, fs.statResult = .ok t ∧ t > s.lastMod ∧ fs.readResult = .error ()) :
    ((s.ReloadDatabase fs).2 = some .ioStatError ∨
      (s.ReloadDatabase fs).2 = some .ioReadError)
    ∧ (s.ReloadDatabase fs).1 = s
    ∧ (watcherStep s fs .tick).1 = s
    ∧ (watcherStep s fs .tick).2 = .continueLoop := by
  obtain ⟨st, rd⟩ := fs
  rcases h with hs | ⟨t, hs, ht, hr⟩
  · simp only at hs
    subst hs
    simp [Srv.ReloadDatabase, watcherStep]
  · simp only at hs hr
    subst hs
    subst hr
    simp [Srv.ReloadDatabase, watcherStep, ht]

/-- C7: a candidate Release with an empty container, releaseChannel or
imagePath is rejected by `Write` with the error naming the first missing
field, and the receiver is returned completely unchanged. -/
theorem C7_writeValidation (im : inMem) (r : Release)
    (h : r.container = "" ∨ r.releaseChannel = "" ∨ r.imagePath = "") :
    (im.Write r).1 = im
    ∧ (r.container = "" → (im.Write r).2 = some .containerNotSet)
    ∧ (r.container ≠ "" → r.releaseChannel = "" →
        (im.Write r).2 = some .releaseChannelNotSet)
    ∧ (r.container ≠ "" → r.releaseChannel ≠ "" → r.imagePath = "" →
        (im.Write r).2 = some .imagePathNotSet) := by
  have hinv : validRelease r = false := by
    rcases h with h | h | h <;> simp [validRelease, h]
  refine ⟨Write_fst_of_invalid im r hinv, ?_, ?_, ?_⟩
  · intro hc
    simp [inMem.Write, hc]
  · intro hc hch
    simp [inMem.Write, hc, hch]
  · intro hc hch hip
    simp [inMem.Write, hc, hch, hip]

/-- C10: `Query` is total, returns no error, leaves the store unchanged
(the receiver state at every return equals the input state), and a
second identical query against the resulting state returns the same
answer. -/
theorem C10_queryFrame (im : inMem) (r : Release) :
    (im.QueryS r).2 = im
    ∧ (((im.QueryS r).2).QueryS r).1 = (im.QueryS r).1 := by
  have h : (im.QueryS r).2 = im := by
    unfold inMem.QueryS
    split_ifs <;> first | rfl | (split <;> rfl)
  exact ⟨h, by rw [h]⟩

/-- C4: loading a parse-ok blob never fails, and the resulting store's
full sequence is exactly the valid records of the input, in order: each
record failing Write-level validation is skipped without aborting the
load. -/
theorem C4_partialLoad (s : Srv) (rs : List Release) :
    (s.loadDatabase (.ok rs)).2 = none
    ∧ ((s.loadDatabase (.ok rs)).1).db.all = rs.filter validRelease := by
  refine ⟨rfl, ?_⟩
  show (writeAll NewInMemoryStore rs).all = rs.filter validRelease
  rw [writeAll_all]
  simp [NewInMemoryStore]

/-- C2: after two successful writes r1 then r2 sharing a composite key,
the both-fields query returns exactly [r2] (last write wins in the
composite index), while the full sequence and the by-container and
by-channel lists retain both r1 and r2. -/
theorem C2_lastWriteWins (im im1 im2 : inMem) (r1 r2 : Release)
    (h1 : im.Write r1 = (im1, none)) (h2 : im1.Write r2 = (im2, none))
    (hk : r1.toKey = r2.toKey) :
    im2.Query { container := r2.container, imagePath := "",
                releaseChannel := r2.releaseChannel } = [r2]
    ∧ im2.all = im.all ++ [r1, r2]
    ∧ mapLookup im2.byContainer r2.container =
        some (((mapLookup im.byContainer r2.container).getD []) ++ [r1, r2])
    ∧ mapLookup im2.byChannel r2.releaseChannel =
        some (((mapLookup im.byChannel r2.releaseChannel).getD []) ++ [r1, r2]) := by
  obtain ⟨hv1, he1⟩ := Write_ok im im1 r1 h1
  obtain ⟨hv2, he2⟩ := Write_ok im1 im2 r2 h2
  have hcc : r1.container = r2.container := congrArg ReleaseKey.container hk
  have hch : r1.releaseChannel = r2.releaseChannel :=
    congrArg ReleaseKey.releaseChannel hk
  simp only [validRelease, Bool.and_eq_true, decide_eq_true_eq] at hv2
  obtain ⟨⟨h2c, h2ch⟩, h2ip⟩ := hv2
  subst he1
  subst he2
  refine ⟨?_, ?_, ?_, ?_⟩
  · simp only [inMem.Query, inMem.QueryS]
    rw [if_pos ⟨h2c, h2ch⟩]
    have hkey : Release.toKey ⟨r2.container, "", r2.releaseChannel⟩ = r2.toKey := rfl
    rw [hkey]
    simp [writeResult, mapLookup_mapInsert_self]
  · simp [writeResult, List.append_assoc]
  · simp only [writeResult]
    rw [← hcc]
    simp [mapLookup_mapInsert_self, List.append_assoc]
  · simp only [writeResult]
    rw [← hch]
    simp [mapLookup_mapInsert_self, List.append_assoc]

/-- C8: for a store built from the empty store by a sequence of
successful writes, a container-only query returns all and only the
written releases with that container, in write order; symmetrically for
a channel-only query. -/
theorem C8_partialKeyQueries (ws : List Release) (c ch : String)
    (hv : ∀ r ∈ ws, validRelease r = true) (hc : c ≠ "") (hch : ch ≠ "") :
    (writeAll NewInMemoryStore ws).Query
        { container := c, imagePath := "", releaseChannel := "" } =
      ws.filter (fun r => decide (r.container = c))
    ∧ (writeAll NewInMemoryStore ws).Query
        { container := "", imagePath := "", releaseChannel := ch } =
      ws.filter (fun r => decide (r.releaseChannel = ch)) := by
  constructor
  · simp only [inMem.Query, inMem.QueryS]
    rw [if_neg (by simp), if_pos hc]
    have hfc : ws.filter (fun r => validRelease r && decide (r.container = c)) =
        ws.filter (fun r => decide (r.container = c)) := by
      apply List.filter_congr
      intro r hr
      simp [hv r hr]
    have h0 : mapLookup NewInMemoryStore.byContainer c = (none : Option Releases) := rfl
    cases hl : mapLookup (writeAll NewInMemoryStore ws).byContainer c with
    | none =>
      have hinv := writeAll_byContainer ws NewInMemoryStore c
      rw [hl, h0, hfc] at hinv
      simp only [Option.getD_none, List.nil_append] at hinv
      show ([] : Releases) = ws.filter (fun r => decide (r.container = c))
      exact hinv
    | some out =>
      have hinv := writeAll_byContainer ws NewInMemoryStore c
      rw [hl, h0, hfc] at hinv
      simp only [Option.getD_some, Option.getD_none, List.nil_append] at hinv
      show out = ws.filter (fun r => decide (r.container = c))
      exact hinv
  · simp only [inMem.Query, inMem.QueryS]
    rw [if_neg (by simp), if_neg (by simp), if_pos hch]
    have hfc : ws.filter (fun r => validRelease r && decide (r.releaseChannel = ch)) =
        ws.filter (fun r => decide (r.releaseChannel = ch)) := by
      apply List.filter_congr
      intro r hr
      simp [hv r hr]
    have h0 : mapLookup NewInMemoryStore.byChannel ch = (none : Option Releases) := rfl
    cases hl : mapLookup (writeAll NewInMemoryStore ws).byChannel ch with
    | none =>
      have hinv := writeAll_byChannel ws NewInMemoryStore ch
      rw [hl, h0, hfc] at hinv
      simp only [Option.getD_none, List.nil_append] at hinv
      show ([] : Releases) = ws.filter (fun r => decide (r.releaseChannel = ch))
      exact hinv
    | some out =>
      have hinv := writeAll_byChannel ws NewInMemoryStore ch
      rw [hl, h0, hfc] at hinv
      simp only [Option.getD_some, Option.getD_none, List.nil_append] at hinv
      show out = ws.filter (fun r => decide (r.releaseChannel = ch))
      exact hinv

/-- C1: evaluated at a concrete failing input: reloading a malformed
blob returns the error and leaves the watermark unchanged, but the
previously published data is NOT retained — `loadDatabase` blanks
`s.db` before parsing, so queries after the failed load see an empty
store instead of the prior generation. -/
theorem C1_code_bug :
    (srv0.ReloadDatabase { statResult := .ok 1, readResult := .ok .malformed }).2 =
        some (.loadError .malformedInput)
    ∧ (srv0.ReloadDatabase { statResult := .ok 1, readResult := .ok .malformed }).1.lastMod =
        srv0.lastMod
    ∧ (srv0.ReloadDatabase
        { statResult := .ok 1, readResult := .ok .malformed }).1.db.Query emptyFilter = []
    ∧ srv0.db.Query emptyFilter = [relA] := by decide

/-- C9: evaluated at a concrete failing input: during a reload of two
records, the freshly reset empty store is among the values of `s.db`
published to concurrent queries (the reference is replaced before the
records are written, not swapped once fully built), and a dataset-dump
query against it matches neither the prior generation's answer nor the
completed new generation's answer. -/
theorem C9_code_bug :
    (srv0.loadDatabase (.ok [relB, relC])).1.db = writeAll NewInMemoryStore [relB, relC]
    ∧ NewInMemoryStore ∈ loadVisible [relB, relC]
    ∧ NewInMemoryStore.Query emptyFilter ≠ srv0.db.Query emptyFilter
    ∧ NewInMemoryStore.Query emptyFilter ≠
        (writeAll NewInMemoryStore [relB, relC]).Query emptyFilter := by decide

/- Witnesses: the hypothesis-bearing claim theorems applied at concrete inputs. -/

/-- A second write for the composite key (app, dev): same key as `relA`,
different image. -/
def relA2 : Release := { container := "app", imagePath := "img2", releaseChannel := "dev" }

/-- Store after writing `relA` into the empty store. -/
def cIm1 : inMem := (NewInMemoryStore.Write relA).1

/-- Store after writing `relA` then `relA2`. -/
def cIm2 : inMem := (cIm1.Write relA2).1

/-- An invalid candidate record: empty container. -/
def relBad : Release := { container := "", imagePath := "x", releaseChannel := "y" }

/-- A file system where stat fails. -/
def fsDown : FileSys := { statResult := .error (), readResult := .error () }

theorem C2_lastWriteWins_witness :
    cIm2.Query { container := relA2.container, imagePath := "",
                 releaseChannel := relA2.releaseChannel } = [relA2]
    ∧ cIm2.all = NewInMemoryStore.all ++ [relA, relA2]
    ∧ mapLookup cIm2.byContainer relA2.container =
        some (((mapLookup NewInMemoryStore.byContainer relA2.container).getD []) ++ [relA, relA2])
    ∧ mapLookup cIm2.byChannel relA2.releaseChannel =
        some (((mapLookup NewInMemoryStore.byChannel relA2.releaseChannel).getD []) ++ [relA, relA2]) :=
  C2_lastWriteWins NewInMemoryStore cIm1 cIm2 relA relA2 (by decide) (by decide) (by decide)

theorem C3_queryDispatch_witness :
    srv0.db.Query relA = ((mapLookup srv0.db.byBoth relA.toKey).map fun o => [o]).getD []
    ∧ (srv0.db.Query relA).length ≤ 1 :=
  (C3_queryDispatch srv0.db relA).1 (by decide) (by decide)

theorem C5_staleSkip_witness :
    srv0.ReloadDatabase { statResult := .ok 0, readResult := .ok (.ok [relB]) } = (srv0, none)
    ∧ srv0.ReloadDatabase { statResult := .ok 0, readResult := .ok (.ok [relB]) } =
        srv0.ReloadDatabase { statResult := .ok 0, readResult := .error () } :=
  C5_staleSkip srv0 0 (.ok (.ok [relB])) (.error ()) (by decide)

theorem C6_ioFailureRetains_witness :
    ((srv0.ReloadDatabase fsDown).2 = some .ioStatError ∨
      (srv0.ReloadDatabase fsDown).2 = some .ioReadError)
    ∧ (srv0.ReloadDatabase fsDown).1 = srv0
    ∧ (watcherStep srv0 fsDown .tick).1 = srv0
    ∧ (watcherStep srv0 fsDown .tick).2 = .continueLoop :=
  C6_ioFailureRetains srv0 fsDown (Or.inl rfl)

theorem C7_writeValidation_witness :
    (NewInMemoryStore.Write relBad).1 = NewInMemoryStore
    ∧ (relBad.container = "" →
        (NewInMemoryStore.Write relBad).2 = some .containerNotSet)
    ∧ (relBad.container ≠ "" → relBad.releaseChannel = "" →
        (NewInMemoryStore.Write relBad).2 = some .releaseChannelNotSet)
    ∧ (relBad.container ≠ "" → relBad.releaseChannel ≠ "" → relBad.imagePath = "" →
        (NewInMemoryStore.Write relBad).2 = some .imagePathNotSet) :=
  C7_writeValidation NewInMemoryStore relBad (Or.inl rfl)

theorem C8_partialKeyQueries_witness :
    (writeAll NewInMemoryStore [relB, relC]).Query
        { container := "b", imagePath := "", releaseChannel := "" } =
      [relB, relC].filter (fun r => decide (r.container = "b"))
    ∧ (writeAll NewInMemoryStore [relB, relC]).Query
        { container := "", imagePath := "", releaseChannel := "prod" } =
      [relB, relC].filter (fun r => decide (r.releaseChannel = "prod")) :=
  C8_partialKeyQueries [relB, relC] "b" "prod" (by decide) (by decide) (by decide)
